import Mathlib

/- Shallow embedding of the graph construction and validation engine of the
ensmallen_graph repository: the `validate` function and the
`Graph::new_directed` / `Graph::new_undirected` constructors. -/

/-- Model of a Rust `f64` weight value, keeping exactly the structure the
validator's comparisons observe: a finite value (as a rational), a signed
infinity, or NaN. -/
inductive WeightT where
  | finite (q : Rat)
  | inf (positive : Bool)
  | nan
deriving DecidableEq

/-- Rust `*weight == 0.0`: true exactly for finite zero (IEEE: `-0.0 == 0.0`,
and comparisons with NaN are false). -/
def weightEqZero : WeightT → Bool
  | .finite q => q == 0
  | _ => false

/-- Rust `*weight < 0.0`: finite negative values and negative infinity; false
for NaN. -/
def weightLtZero : WeightT → Bool
  | .finite q => decide (q < 0)
  | .inf positive => !positive
  | .nan => false

/-- Rust `weight.is_nan()`. -/
def weightIsNaN : WeightT → Bool
  | .nan => true
  | _ => false

/-- Rust `weight.is_infinite()`. -/
def weightIsInfinite : WeightT → Bool
  | .inf _ => true
  | _ => false

/-- Error kinds raised by `validate`, each carrying the offending counts or
values that the source embeds in its error message. -/
inductive BuildError where
  | LengthMismatchNodeMapping (nodesMappingLen nodesReverseMappingLen : Nat)
  | LengthMismatchNodeTypes (nodeTypesLen nodesReverseMappingLen : Nat)
  | DanglingNodeReference (node : Nat)
  | LengthMismatchWeights (weightsLen sourcesLen : Nat)
  | ZeroWeight (w : WeightT)
  | NegativeWeight (w : WeightT)
  | NaNWeight
  | InfiniteWeight
  | LengthMismatchEdgeTypes (edgeTypesLen sourcesLen : Nat)
deriving DecidableEq

/-- Body of the per-weight loop in `validate`: the four domain checks in
source order (zero, negative, NaN, infinite). -/
def checkWeight (w : WeightT) : Option BuildError :=
  if weightEqZero w then some (.ZeroWeight w)
  else if weightLtZero w then some (.NegativeWeight w)
  else if weightIsNaN w then some .NaNWeight
  else if weightIsInfinite w then some .InfiniteWeight
  else none

/-- The `for weight in w.iter()` loop of `validate`: the error of the first
offending weight, scanning positions left to right. -/
def checkWeights : List WeightT → Option BuildError
  | [] => none
  | w :: ws =>
    match checkWeight w with
    | some e => some e
    | none => checkWeights ws

/-- The `for node in sources.iter().chain(destinations.iter())` loop of
`validate`: the first node id that is `>=` the bound, if any. -/
def firstDangling (sources destinations : List Nat) (bound : Nat) : Option Nat :=
  (sources ++ destinations).find? (fun node => decide (bound ≤ node))

/-- First `if let Some(nt)` block of `validate`: node types length check. -/
def nodeTypesLenBlock (node_types : Option (List Nat)) (nodes_reverse_len : Nat) :
    Except BuildError Unit :=
  match node_types with
  | none => .ok ()
  | some nt =>
    if nt.length ≠ nodes_reverse_len then
      .error (.LengthMismatchNodeTypes nt.length nodes_reverse_len)
    else .ok ()

/-- Second `if let Some(nt)` block of `validate`: every node id used by the
edges must be `< nt.len()`. -/
def nodeTypesDanglingBlock (sources destinations : List Nat)
    (node_types : Option (List Nat)) : Except BuildError Unit :=
  match node_types with
  | none => .ok ()
  | some nt =>
    match firstDangling sources destinations nt.length with
    | some node => .error (.DanglingNodeReference node)
    | none => .ok ()

/-- The `if let Some(w) = weights` block of `validate`: length check, then the
per-weight domain checks. -/
def weightsBlock (sources_len : Nat) (weights : Option (List WeightT)) :
    Except BuildError Unit :=
  match weights with
  | none => .ok ()
  | some w =>
    if w.length ≠ sources_len then
      .error (.LengthMismatchWeights w.length sources_len)
    else
      match checkWeights w with
      | some e => .error e
      | none => .ok ()

/-- The `if let Some(et) = edge_types` block of `validate`: length check only. -/
def edgeTypesBlock (sources_len : Nat) (edge_types : Option (List Nat)) :
    Except BuildError Unit :=
  match edge_types with
  | none => .ok ()
  | some et =>
    if et.length ≠ sources_len then
      .error (.LengthMismatchEdgeTypes et.length sources_len)
    else .ok ()

/-- The `validate` function: the checks run in source order, each early
`return Err` modelled by the error propagation of the surrounding match. -/
def validate (sources destinations : List Nat)
    (nodes_mapping : List (String × Nat)) (nodes_reverse_mapping : List String)
    (node_types : Option (List Nat)) (edge_types : Option (List Nat))
    (weights : Option (List WeightT)) : Except BuildError Unit :=
  if nodes_mapping.length ≠ nodes_reverse_mapping.length then
    .error (.LengthMismatchNodeMapping nodes_mapping.length nodes_reverse_mapping.length)
  else
    match nodeTypesLenBlock node_types nodes_reverse_mapping.length with
    | .error e => .error e
    | .ok _ =>
      match nodeTypesDanglingBlock sources destinations node_types with
      | .error e => .error e
      | .ok _ =>
        match weightsBlock sources.length weights with
        | .error e => .error e
        | .ok _ => edgeTypesBlock sources.length edge_types

/-- Insert-or-overwrite into an association list, modelling `HashMap`
insertion: an existing binding for the key is replaced, otherwise the binding
is appended. -/
def insertKV (k : Nat × Nat) (v : Nat) (m : List ((Nat × Nat) × Nat)) :
    List ((Nat × Nat) × Nat) :=
  if m.any (fun e => decide (e.1 = k)) then
    m.map (fun e => if e.1 = k then (k, v) else e)
  else m ++ [(k, v)]

/-- `HashMap::from_iter`: fold the bindings left to right, a later binding for
a key overwriting an earlier one. -/
def hashMapFromIter (l : List ((Nat × Nat) × Nat)) : List ((Nat × Nat) × Nat) :=
  l.foldl (fun m e => insertKV e.1 e.2 m) []

/-- Lookup in the association-list model of the dedup `HashMap`. -/
def lookupEdge (m : List ((Nat × Nat) × Nat)) (k : Nat × Nat) : Option Nat :=
  match m with
  | [] => none
  | e :: t => if k = e.1 then some e.2 else lookupEdge t k

/-- Value bound to a key by the last binding for it in the list, if any:
the observable content of `HashMap::from_iter` on the bindings. -/
def lookupLast (m : List ((Nat × Nat) × Nat)) (k : Nat × Nat) : Option Nat :=
  match m with
  | [] => none
  | e :: t =>
    match lookupLast t k with
    | some v => some v
    | none => if k = e.1 then some e.2 else none

/-- The `Graph` struct: node mapping, dedup index, pass-through type data,
offset table, and the sorted edge arrays. -/
structure Graph where
  nodes_mapping : List (String × Nat)
  nodes_reverse_mapping : List String
  unique_edges : List ((Nat × Nat) × Nat)
  node_types : Option (List Nat)
  node_types_mapping : Option (List (String × Nat))
  node_types_reverse_mapping : Option (List String)
  edge_types_mapping : Option (List (String × Nat))
  edge_types_reverse_mapping : Option (List String)
  outbounds : List Nat
  sources : List Nat
  destinations : List Nat
  weights : Option (List WeightT)
  edge_types : Option (List Nat)
deriving DecidableEq

/-- Order on `(position, source)` pairs used by the source's
`pairs.par_sort_unstable_by_key(|(_, &v)| v)`. -/
def sortPairsRel (a b : Nat × Nat) : Prop := a.2 ≤ b.2

instance : DecidableRel sortPairsRel := fun a b => Nat.decLe a.2 b.2

instance : IsTotal (Nat × Nat) sortPairsRel := ⟨fun a b => Nat.le_total a.2 b.2⟩

instance : IsTrans (Nat × Nat) sortPairsRel := ⟨fun _ _ _ h h2 => Nat.le_trans h h2⟩

/-- The sorting permutation of `new_directed`: positions of `sources` sorted by
source id. The source uses an unstable sort whose tie order is unspecified;
insertion sort by the same key realizes one admissible outcome. -/
def sort_indices (sources : List Nat) : List Nat :=
  (List.insertionSort sortPairsRel sources.enum).map (fun p => p.1)

/-- Reorder `l` through a list of positions, as the source's
`indices.par_iter().map(|&&x| l[x]).collect()`; positions are always in bounds
at every use, so the default is never observed. -/
def applyPerm {α : Type} (indices : List Nat) (l : List α) (dflt : α) : List α :=
  indices.map (fun x => l.getD x dflt)

/-- Number of entries of `l` that are `≤ i`. -/
def countLe (l : List Nat) (i : Nat) : Nat :=
  (l.filter (fun s => decide (s ≤ i))).length

/-- Modelled from the spec: the body of `Graph::compute_outbounds` is not among
the provided sources (only its call site in `new_directed` is). Per the spec,
the offset table has length `nodeCount` and `offset[i]` is the number of sorted
edges with `source ≤ i`. -/
def compute_outbounds (nodes_number : Nat) (sorted_sources : List Nat) : List Nat :=
  (List.range nodes_number).map (fun i => countLe sorted_sources i)

/-- Steps of `new_directed` after the validation gate: dedup index, sorting
permutation, reordered arrays, offset table, and the assembled `Graph`. -/
def directed_core (sources destinations : List Nat)
    (nodes_mapping : List (String × Nat)) (nodes_reverse_mapping : List String)
    (node_types : Option (List Nat)) (node_types_mapping : Option (List (String × Nat)))
    (node_types_reverse_mapping : Option (List String))
    (edge_types : Option (List Nat)) (edge_types_mapping : Option (List (String × Nat)))
    (edge_types_reverse_mapping : Option (List String))
    (weights : Option (List WeightT)) : Graph :=
  { nodes_mapping := nodes_mapping
    nodes_reverse_mapping := nodes_reverse_mapping
    unique_edges := hashMapFromIter
      ((sources.zip destinations).enum.map (fun p => (p.2, p.1)))
    node_types := node_types
    node_types_mapping := node_types_mapping
    node_types_reverse_mapping := node_types_reverse_mapping
    edge_types_mapping := edge_types_mapping
    edge_types_reverse_mapping := edge_types_reverse_mapping
    outbounds := compute_outbounds nodes_reverse_mapping.length
      (applyPerm (sort_indices sources) sources 0)
    sources := applyPerm (sort_indices sources) sources 0
    destinations := applyPerm (sort_indices sources) destinations 0
    weights := weights.map (fun w => applyPerm (sort_indices sources) w (WeightT.finite 0))
    edge_types := edge_types.map (fun et => applyPerm (sort_indices sources) et 0) }

/-- `Graph::new_directed`. -/
def new_directed (sources destinations : List Nat)
    (nodes_mapping : List (String × Nat)) (nodes_reverse_mapping : List String)
    (node_types : Option (List Nat)) (node_types_mapping : Option (List (String × Nat)))
    (node_types_reverse_mapping : Option (List String))
    (edge_types : Option (List Nat)) (edge_types_mapping : Option (List (String × Nat)))
    (edge_types_reverse_mapping : Option (List String))
    (weights : Option (List WeightT)) (validate_input_data : Option Bool) :
    Except BuildError Graph :=
  match (if validate_input_data.getD true then
          validate sources destinations nodes_mapping nodes_reverse_mapping
            node_types edge_types weights
         else Except.ok ()) with
  | .error e => .error e
  | .ok _ => .ok (directed_core sources destinations nodes_mapping
      nodes_reverse_mapping node_types node_types_mapping
      node_types_reverse_mapping edge_types edge_types_mapping
      edge_types_reverse_mapping weights)

/-- The self-loop mask of `new_undirected`:
`mask[i] = (sources[i] == destinations[i])`. -/
def loops_mask (sources destinations : List Nat) : List Bool :=
  (sources.zip destinations).map (fun p => p.1 == p.2)

/-- Keep the elements of `l` whose mask entry is `false`, as the source's
`l.par_iter().zip(mask.par_iter()).filter(|&(_, &m)| !m).map(|(v, _)| *v)`. -/
def filterMask {α : Type} (l : List α) (mask : List Bool) : List α :=
  ((l.zip mask).filter (fun p => !p.2)).map (fun p => p.1)

/-- `Graph::new_undirected`: validate the original input, mirror every
non-self-loop edge (with its weight and edge type), then delegate to
`new_directed` with validation disabled. -/
def new_undirected (sources destinations : List Nat)
    (nodes_mapping : List (String × Nat)) (nodes_reverse_mapping : List String)
    (node_types : Option (List Nat)) (node_types_mapping : Option (List (String × Nat)))
    (node_types_reverse_mapping : Option (List String))
    (edge_types : Option (List Nat)) (edge_types_mapping : Option (List (String × Nat)))
    (edge_types_reverse_mapping : Option (List String))
    (weights : Option (List WeightT)) (validate_input_data : Option Bool) :
    Except BuildError Graph :=
  match (if validate_input_data.getD true then
          validate sources destinations nodes_mapping nodes_reverse_mapping
            node_types edge_types weights
         else Except.ok ()) with
  | .error e => .error e
  | .ok _ =>
    new_directed
      (sources ++ filterMask destinations (loops_mask sources destinations))
      (destinations ++ filterMask sources (loops_mask sources destinations))
      nodes_mapping nodes_reverse_mapping node_types node_types_mapping
      node_types_reverse_mapping
      (edge_types.map (fun e => e ++ filterMask e (loops_mask sources destinations)))
      edge_types_mapping edge_types_reverse_mapping
      (weights.map (fun w => w ++ filterMask w (loops_mask sources destinations)))
      (some false)

/- Helper lemmas about the sorting permutation. -/

theorem applyPerm_length {α : Type} (idx : List Nat) (l : List α) (d : α) :
    (applyPerm idx l d).length = idx.length := by
  simp [applyPerm]

theorem sort_indices_perm (s : List Nat) :
    (sort_indices s).Perm (List.range s.length) := by
  unfold sort_indices
  have h := (List.perm_insertionSort sortPairsRel s.enum).map Prod.fst
  rw [List.enum_map_fst] at h
  exact h

theorem sort_indices_length (s : List Nat) : (sort_indices s).length = s.length :=
  ((sort_indices_perm s).length_eq).trans (List.length_range _)

theorem mem_sort_indices {s : List Nat} {x : Nat} (h : x ∈ sort_indices s) :
    x < s.length := by
  have := (sort_indices_perm s).mem_iff.mp h
  simpa using this

theorem range_map_getD {α : Type} (l : List α) (d : α) :
    (List.range l.length).map (fun x => l.getD x d) = l := by
  apply List.ext_getElem?
  intro i
  rw [List.getElem?_map]
  by_cases h : i < l.length
  · rw [List.getElem?_range h, List.getElem?_eq_getElem h]
    simp [List.getD_eq_getElem?_getD, List.getElem?_eq_getElem h]
  · have h1 : (List.range l.length)[i]? = none := by
      rw [List.getElem?_eq_none]
      simpa using Nat.le_of_not_lt h
    have h2 : l[i]? = none := List.getElem?_eq_none (Nat.le_of_not_lt h)
    rw [h1, h2]
    rfl

theorem applyPerm_perm {α : Type} {idx : List Nat} (l : List α) (d : α)
    (h : idx.Perm (List.range l.length)) : (applyPerm idx l d).Perm l := by
  have h2 := h.map (fun x => l.getD x d)
  rwa [range_map_getD] at h2

theorem getD_zip {α β : Type} (a : List α) (b : List β) (i : Nat) (da : α) (db : β)
    (ha : i < a.length) (hb : i < b.length) :
    (a.zip b).getD i (da, db) = (a.getD i da, b.getD i db) := by
  have hz : (a.zip b)[i]? = some (a[i], b[i]) :=
    List.getElem?_zip_eq_some.mpr ⟨List.getElem?_eq_getElem ha, List.getElem?_eq_getElem hb⟩
  simp [List.getD_eq_getElem?_getD, hz, List.getElem?_eq_getElem, ha, hb]

theorem applyPerm_zip_eq {α β : Type} (idx : List Nat) (a : List α) (b : List β)
    (da : α) (db : β) (hia : ∀ x ∈ idx, x < a.length) (hib : ∀ x ∈ idx, x < b.length) :
    (applyPerm idx a da).zip (applyPerm idx b db) = applyPerm idx (a.zip b) (da, db) := by
  unfold applyPerm
  rw [List.zip_map']
  apply List.map_congr_left
  intro x hx
  rw [getD_zip a b x da db (hia x hx) (hib x hx)]

theorem applyPerm_sources_eq (s : List Nat) :
    applyPerm (sort_indices s) s 0 =
      (List.insertionSort sortPairsRel s.enum).map (fun p => p.2) := by
  unfold applyPerm sort_indices
  rw [List.map_map]
  apply List.map_congr_left
  intro p hp
  have hmem : p ∈ s.enum := (List.mem_insertionSort sortPairsRel).1 hp
  have hp2 : s[p.1]? = some p.2 := List.mem_enum_iff_getElem?.1 hmem
  simp [Function.comp, List.getD_eq_getElem?_getD, hp2]

theorem sorted_sources_sorted (s : List Nat) :
    List.Sorted (fun a b => a ≤ b) (applyPerm (sort_indices s) s 0) := by
  rw [applyPerm_sources_eq]
  exact List.pairwise_map.mpr (List.sorted_insertionSort sortPairsRel s.enum)

/- Helper lemmas about `countLe` over a sorted list. -/

theorem countLe_cons (a : Nat) (t : List Nat) (i : Nat) :
    countLe (a :: t) i = if a ≤ i then countLe t i + 1 else countLe t i := by
  unfold countLe
  rw [List.filter_cons]
  by_cases h : a ≤ i
  · simp [h]
  · simp [h]

theorem countLe_le_length (l : List Nat) (i : Nat) : countLe l i ≤ l.length :=
  List.length_filter_le _ _

theorem sorted_getD_le_of_lt_countLe :
    ∀ (l : List Nat), List.Sorted (fun a b => a ≤ b) l → ∀ (i pos : Nat),
      pos < countLe l i → l.getD pos 0 ≤ i := by
  intro l
  induction l with
  | nil => intro _ i pos h; simp [countLe] at h
  | cons a t ih =>
    intro hsort i pos h
    have hsc := List.sorted_cons.mp hsort
    rw [countLe_cons] at h
    by_cases ha : a ≤ i
    · rw [if_pos ha] at h
      cases pos with
      | zero => simpa using ha
      | succ p =>
        have hp : p < countLe t i := Nat.lt_of_succ_lt_succ h
        simpa using ih hsc.2 i p hp
    · rw [if_neg ha] at h
      have hz : countLe t i = 0 := by
        unfold countLe
        rw [List.length_eq_zero, List.filter_eq_nil_iff]
        intro b hb
        simp only [decide_eq_true_eq]
        intro hbi
        exact ha (Nat.le_trans (hsc.1 b hb) hbi)
      rw [hz] at h
      exact absurd h (Nat.not_lt_zero _)

theorem sorted_lt_getD_of_countLe_le :
    ∀ (l : List Nat), List.Sorted (fun a b => a ≤ b) l → ∀ (i pos : Nat),
      countLe l i ≤ pos → pos < l.length → i < l.getD pos 0 := by
  intro l
  induction l with
  | nil => intro _ i pos _ h; simp at h
  | cons a t ih =>
    intro hsort i pos hle hlt
    have hsc := List.sorted_cons.mp hsort
    rw [countLe_cons] at hle
    by_cases ha : a ≤ i
    · rw [if_pos ha] at hle
      cases pos with
      | zero => exact absurd hle (by simp)
      | succ p =>
        have h1 : countLe t i ≤ p := Nat.le_of_succ_le_succ hle
        have h2 : p < t.length := Nat.lt_of_succ_lt_succ (by simpa using hlt)
        simpa using ih hsc.2 i p h1 h2
    · have hia : i < a := Nat.lt_of_not_le ha
      cases pos with
      | zero => simpa using hia
      | succ p =>
        have h2 : p < t.length := Nat.lt_of_succ_lt_succ (by simpa using hlt)
        have hmem : t.getD p 0 ∈ t := by
          rw [List.getD_eq_getElem?_getD, List.getElem?_eq_getElem h2]
          exact List.getElem_mem h2
        have hle2 : a ≤ t.getD p 0 := hsc.1 _ hmem
        simpa using Nat.lt_of_lt_of_le hia hle2

theorem countLe_eq_length_of_bound (l : List Nat) (n : Nat) (h : ∀ x ∈ l, x < n) :
    countLe l (n - 1) = l.length := by
  unfold countLe
  have hf : l.filter (fun s => decide (s ≤ n - 1)) = l := by
    rw [List.filter_eq_self]
    intro x hx
    have := h x hx
    simp only [decide_eq_true_eq]
    omega
  rw [hf]

theorem compute_outbounds_length (n : Nat) (l : List Nat) :
    (compute_outbounds n l).length = n := by
  simp [compute_outbounds]

theorem compute_outbounds_getD (n : Nat) (l : List Nat) (i : Nat) (h : i < n) :
    (compute_outbounds n l).getD i 0 = countLe l i := by
  unfold compute_outbounds
  rw [List.getD_eq_getElem?_getD, List.getElem?_map, List.getElem?_range h]
  rfl

/- Inversion of the builders. -/

theorem new_directed_ok_eq {s d : List Nat} {nm : List (String × Nat)}
    {nrm : List String} {nt : Option (List Nat)} {ntm : Option (List (String × Nat))}
    {ntrm : Option (List String)} {et : Option (List Nat)}
    {etm : Option (List (String × Nat))} {etrm : Option (List String)}
    {w : Option (List WeightT)} {vid : Option Bool} {g : Graph}
    (h : new_directed s d nm nrm nt ntm ntrm et etm etrm w vid = Except.ok g) :
    g = directed_core s d nm nrm nt ntm ntrm et etm etrm w := by
  unfold new_directed at h
  split at h
  · simp at h
  · injection h with h
    exact h.symm

theorem new_undirected_ok_eq {s d : List Nat} {nm : List (String × Nat)}
    {nrm : List String} {nt : Option (List Nat)} {ntm : Option (List (String × Nat))}
    {ntrm : Option (List String)} {et : Option (List Nat)}
    {etm : Option (List (String × Nat))} {etrm : Option (List String)}
    {w : Option (List WeightT)} {vid : Option Bool} {g : Graph}
    (h : new_undirected s d nm nrm nt ntm ntrm et etm etrm w vid = Except.ok g) :
    g = directed_core
      (s ++ filterMask d (loops_mask s d))
      (d ++ filterMask s (loops_mask s d))
      nm nrm nt ntm ntrm
      (et.map (fun e => e ++ filterMask e (loops_mask s d)))
      etm etrm
      (w.map (fun ww => ww ++ filterMask ww (loops_mask s d))) := by
  unfold new_undirected at h
  split at h
  · simp at h
  · exact new_directed_ok_eq h

/- Helper lemmas about the symmetrization pass. -/

theorem filterMask_length_congr {α β : Type} :
    ∀ (a : List α) (b : List β) (m : List Bool), a.length = b.length →
      (filterMask a m).length = (filterMask b m).length := by
  intro a
  induction a with
  | nil =>
    intro b m h
    cases b
    · rfl
    · simp at h
  | cons x a ih =>
    intro b m h
    cases b with
    | nil => simp at h
    | cons y b =>
      cases m with
      | nil => simp [filterMask]
      | cons mb m =>
        have hlen : a.length = b.length := by simpa using h
        cases mb with
        | false => simpa [filterMask, List.filter_cons] using ih b m hlen
        | true => simpa [filterMask, List.filter_cons] using ih b m hlen

theorem filterMask_zip_mirror :
    ∀ (s d : List Nat), d.length = s.length →
      (filterMask d (loops_mask s d)).zip (filterMask s (loops_mask s d)) =
      ((s.zip d).filter (fun p => !(p.1 == p.2))).map Prod.swap := by
  intro s
  induction s with
  | nil =>
    intro d h
    cases d
    · rfl
    · simp at h
  | cons a s ih =>
    intro d h
    cases d with
    | nil => simp at h
    | cons b d =>
      have hlen : d.length = s.length := by simpa using h
      by_cases hab : a = b
      · simpa [filterMask, loops_mask, List.filter_cons, hab] using ih d hlen
      · have hne : (a == b) = false := beq_eq_false_iff_ne.mpr hab
        simpa [filterMask, loops_mask, List.filter_cons, hne] using ih d hlen

theorem filterMask_zip3_mirror {α : Type} :
    ∀ (s d : List Nat) (p : List α), d.length = s.length → p.length = s.length →
      (filterMask d (loops_mask s d)).zip
        ((filterMask s (loops_mask s d)).zip (filterMask p (loops_mask s d))) =
      ((s.zip (d.zip p)).filter (fun t => !(t.1 == t.2.1))).map
        (fun t => (t.2.1, (t.1, t.2.2))) := by
  intro s
  induction s with
  | nil =>
    intro d p h hp
    cases d
    · rfl
    · simp at h
  | cons a s ih =>
    intro d p h hp
    cases d with
    | nil => simp at h
    | cons b d =>
      cases p with
      | nil => simp at hp
      | cons c p =>
        have hlen : d.length = s.length := by simpa using h
        have hlenp : p.length = s.length := by simpa using hp
        by_cases hab : a = b
        · simpa [filterMask, loops_mask, List.filter_cons, hab] using ih d p hlen hlenp
        · have hne : (a == b) = false := beq_eq_false_iff_ne.mpr hab
          simpa [filterMask, loops_mask, List.filter_cons, hne] using ih d p hlen hlenp

theorem directed_zip_perm (s d : List Nat) (hlen : s.length ≤ d.length) :
    ((applyPerm (sort_indices s) s 0).zip (applyPerm (sort_indices s) d 0)).Perm
      (s.zip d) := by
  rw [applyPerm_zip_eq (sort_indices s) s d 0 0
    (fun x hx => mem_sort_indices hx)
    (fun x hx => Nat.lt_of_lt_of_le (mem_sort_indices hx) hlen)]
  apply applyPerm_perm
  have h := sort_indices_perm s
  rwa [List.length_zip, Nat.min_eq_left hlen]

theorem directed_zip3_perm {α : Type} (s d : List Nat) (p : List α) (dp : α)
    (h1 : s.length ≤ d.length) (h2 : s.length ≤ p.length) :
    ((applyPerm (sort_indices s) s 0).zip
      ((applyPerm (sort_indices s) d 0).zip (applyPerm (sort_indices s) p dp))).Perm
      (s.zip (d.zip p)) := by
  rw [applyPerm_zip_eq (sort_indices s) d p 0 dp
    (fun x hx => Nat.lt_of_lt_of_le (mem_sort_indices hx) h1)
    (fun x hx => Nat.lt_of_lt_of_le (mem_sort_indices hx) h2)]
  rw [applyPerm_zip_eq (sort_indices s) s (d.zip p) 0 (0, dp)
    (fun x hx => mem_sort_indices hx)
    (fun x hx => by
      rw [List.length_zip]
      exact Nat.lt_of_lt_of_le (mem_sort_indices hx)
        (le_min h1 h2))]
  apply applyPerm_perm
  have h := sort_indices_perm s
  rwa [List.length_zip, List.length_zip, Nat.min_eq_left (le_min h1 h2)]

/- Helper lemmas about the dedup index. -/

theorem lookupEdge_map_replace_ne (k k' : Nat × Nat) (v' : Nat) :
    ∀ (t : List ((Nat × Nat) × Nat)), k ≠ k' →
      lookupEdge (t.map (fun e => if e.1 = k' then (k', v') else e)) k =
        lookupEdge t k := by
  intro t hk
  induction t with
  | nil => rfl
  | cons e t ih =>
    by_cases he : e.1 = k'
    · simp only [List.map_cons, if_pos he, lookupEdge]
      rw [if_neg hk, if_neg (fun hke => hk (hke.trans he)), ih]
    · simp only [List.map_cons, if_neg he, lookupEdge, ih]

theorem lookupEdge_map_replace_eq (k' : Nat × Nat) (v' : Nat) :
    ∀ (m : List ((Nat × Nat) × Nat)),
      m.any (fun e => decide (e.1 = k')) = true →
      lookupEdge (m.map (fun e => if e.1 = k' then (k', v') else e)) k' = some v' := by
  intro m
  induction m with
  | nil => intro h; simp at h
  | cons e t ih =>
    intro h
    by_cases he : e.1 = k'
    · simp [lookupEdge, if_pos he]
    · simp only [List.map_cons, if_neg he, lookupEdge]
      rw [if_neg (fun hke => he hke.symm)]
      apply ih
      rw [List.any_cons, decide_eq_false he, Bool.false_or] at h
      exact h

theorem lookupEdge_append_single (k k' : Nat × Nat) (v' : Nat) :
    ∀ (m : List ((Nat × Nat) × Nat)),
      m.any (fun e => decide (e.1 = k')) = false →
      lookupEdge (m ++ [(k', v')]) k = if k = k' then some v' else lookupEdge m k := by
  intro m
  induction m with
  | nil =>
    intro _
    by_cases hk : k = k'
    · simp [lookupEdge, hk]
    · simp [lookupEdge, hk]
  | cons e t ih =>
    intro h
    rw [List.any_cons] at h
    have h1 : decide (e.1 = k') = false := by
      cases hh : decide (e.1 = k')
      · rfl
      · rw [hh] at h; simp at h
    have h2 : t.any (fun e => decide (e.1 = k')) = false := by
      cases hh : t.any (fun e => decide (e.1 = k'))
      · rfl
      · rw [hh] at h; simp at h
    have he : e.1 ≠ k' := of_decide_eq_false h1
    by_cases hke : k = e.1
    · have hkk : k ≠ k' := fun hk => he (hke.symm.trans hk)
      simp [lookupEdge, hke, hkk, he]
    · rw [List.cons_append]
      simp only [lookupEdge, if_neg hke]
      exact ih h2

theorem lookupEdge_insertKV (m : List ((Nat × Nat) × Nat)) (k k' : Nat × Nat) (v' : Nat) :
    lookupEdge (insertKV k' v' m) k = if k = k' then some v' else lookupEdge m k := by
  unfold insertKV
  by_cases hex : m.any (fun e => decide (e.1 = k')) = true
  · rw [if_pos hex]
    by_cases hk : k = k'
    · rw [if_pos hk, hk]
      exact lookupEdge_map_replace_eq k' v' m hex
    · rw [if_neg hk]
      exact lookupEdge_map_replace_ne k k' v' m hk
  · rw [if_neg hex]
    exact lookupEdge_append_single k k' v' m (Bool.eq_false_iff.mpr hex)

theorem lookupEdge_foldl_insert :
    ∀ (l m : List ((Nat × Nat) × Nat)) (k : Nat × Nat),
      lookupEdge (l.foldl (fun acc e => insertKV e.1 e.2 acc) m) k =
        match lookupLast l k with
        | some v => some v
        | none => lookupEdge m k := by
  intro l
  induction l with
  | nil => intro m k; rfl
  | cons e t ih =>
    intro m k
    rw [List.foldl_cons, ih]
    rw [lookupLast]
    cases hlt : lookupLast t k with
    | some v => rfl
    | none =>
      rw [lookupEdge_insertKV]
      by_cases hk : k = e.1
      · simp [hk]
      · simp [hk]

theorem lookupEdge_hashMapFromIter (l : List ((Nat × Nat) × Nat)) (k : Nat × Nat) :
    lookupEdge (hashMapFromIter l) k = lookupLast l k := by
  unfold hashMapFromIter
  rw [lookupEdge_foldl_insert]
  cases h : lookupLast l k
  · rfl
  · rfl

theorem lookupLast_eq_none_iff (k : Nat × Nat) :
    ∀ (m : List ((Nat × Nat) × Nat)),
      lookupLast m k = none ↔ ∀ e ∈ m, k ≠ e.1 := by
  intro m
  induction m with
  | nil => simp [lookupLast]
  | cons e t ih =>
    rw [lookupLast]
    constructor
    · intro h
      cases hlt : lookupLast t k with
      | some v => rw [hlt] at h; exact absurd h (by simp)
      | none =>
        rw [hlt] at h
        intro x hx
        rcases List.mem_cons.mp hx with hx | hx
        · subst hx
          intro hke
          rw [if_pos hke] at h
          exact absurd h (by simp)
        · exact (ih.mp hlt) x hx
    · intro h
      have hlt : lookupLast t k = none := ih.mpr (fun x hx => h x (List.mem_cons_of_mem _ hx))
      rw [hlt]
      rw [if_neg (h e (List.mem_cons_self _ _))]

theorem lookupLast_mem (k : Nat × Nat) (v : Nat) :
    ∀ (m : List ((Nat × Nat) × Nat)), lookupLast m k = some v → (k, v) ∈ m := by
  intro m
  induction m with
  | nil => intro h; simp [lookupLast] at h
  | cons e t ih =>
    intro h
    rw [lookupLast] at h
    cases hlt : lookupLast t k with
    | some v2 =>
      rw [hlt] at h
      injection h with h
      subst h
      exact List.mem_cons_of_mem _ (ih hlt)
    | none =>
      rw [hlt] at h
      by_cases hke : k = e.1
      · rw [if_pos hke] at h
        injection h with h
        have : e = (k, v) := by
          cases e with
          | mk e1 e2 => simp_all
        rw [← this]
        exact List.mem_cons_self _ _
      · rw [if_neg hke] at h
        exact absurd h (by simp)

theorem lookupLast_enumFrom_none (k : Nat × Nat) :
    ∀ (zl : List (Nat × Nat)) (off : Nat),
      (∀ j, j < zl.length → zl.getD j (0, 0) ≠ k) →
      lookupLast ((List.enumFrom off zl).map (fun p => (p.2, p.1))) k = none := by
  intro zl off h
  rw [lookupLast_eq_none_iff]
  intro e he
  rcases List.mem_map.mp he with ⟨q, hq, hqe⟩
  have hq2 : q.2 ∈ zl := by
    have := List.mem_map_of_mem Prod.snd hq
    rwa [List.enumFrom_map_snd] at this
  rcases List.mem_iff_getElem.mp hq2 with ⟨j, hj, hje⟩
  intro hke
  apply h j hj
  rw [List.getD_eq_getElem?_getD, List.getElem?_eq_getElem hj]
  simp only [Option.getD_some]
  rw [hje]
  have h1 : e.1 = q.2 := by rw [← hqe]
  rw [← h1]
  exact hke.symm

theorem lookupLast_enumFrom_last (k : Nat × Nat) :
    ∀ (zl : List (Nat × Nat)) (off i : Nat),
      i < zl.length → zl.getD i (0, 0) = k →
      (∀ j, i < j → j < zl.length → zl.getD j (0, 0) ≠ k) →
      lookupLast ((List.enumFrom off zl).map (fun p => (p.2, p.1))) k = some (off + i) := by
  intro zl
  induction zl with
  | nil => intro off i h; simp at h
  | cons p t ih =>
    intro off i hi hget hafter
    rw [List.enumFrom_cons, List.map_cons, lookupLast]
    cases i with
    | zero =>
      have hkp : k = p := by simpa using hget.symm
      have hnone : lookupLast ((List.enumFrom (off + 1) t).map (fun p => (p.2, p.1))) k = none := by
        apply lookupLast_enumFrom_none
        intro j hj
        have := hafter (j + 1) (Nat.succ_pos j) (by simpa using Nat.succ_lt_succ hj)
        simpa using this
      rw [hnone]
      simp [hkp]
    | succ j =>
      have hj : j < t.length := Nat.lt_of_succ_lt_succ (by simpa using hi)
      have hget2 : t.getD j (0, 0) = k := by simpa using hget
      have hafter2 : ∀ j2, j < j2 → j2 < t.length → t.getD j2 (0, 0) ≠ k := by
        intro j2 hj2 hj2len
        have := hafter (j2 + 1) (Nat.succ_lt_succ hj2) (by simpa using Nat.succ_lt_succ hj2len)
        simpa using this
      have := ih (off + 1) j hj hget2 hafter2
      rw [this]
      have : off + 1 + j = off + (j + 1) := by omega
      rw [this]

theorem lookupEdge_unique_edges_last (zl : List (Nat × Nat)) (k : Nat × Nat) (i : Nat)
    (h1 : i < zl.length) (h2 : zl.getD i (0, 0) = k)
    (h3 : ∀ j, i < j → j < zl.length → zl.getD j (0, 0) ≠ k) :
    lookupEdge (hashMapFromIter (zl.enum.map (fun p => (p.2, p.1)))) k = some i := by
  rw [lookupEdge_hashMapFromIter]
  have h := lookupLast_enumFrom_last k zl 0 i h1 h2 h3
  simpa [List.enum] using h

theorem lookupEdge_unique_edges_mem (zl : List (Nat × Nat)) (k : Nat × Nat) (i : Nat)
    (h : lookupEdge (hashMapFromIter (zl.enum.map (fun p => (p.2, p.1)))) k = some i) :
    i < zl.length ∧ zl.getD i (0, 0) = k := by
  rw [lookupEdge_hashMapFromIter] at h
  have hmem := lookupLast_mem k i _ h
  rcases List.mem_map.mp hmem with ⟨q, hq, hqe⟩
  have hq2 : q.2 = k := congrArg Prod.fst hqe
  have hq1 : q.1 = i := congrArg Prod.snd hqe
  have hgl : zl[i]? = some k := by
    have := List.mem_enum_iff_getElem?.mp hq
    rwa [hq1, hq2] at this
  rcases List.getElem?_eq_some.mp hgl with ⟨hlt, hEq⟩
  refine ⟨hlt, ?_⟩
  rw [List.getD_eq_getElem?_getD, hgl]
  rfl

/-- C1: for every input accepted by `new_directed` whose source and destination
ids are all below `nodeCount = len(nodeIdToName)`, the offset table has length
`nodeCount`, `offset[i]` counts the sorted edges with source `≤ i`,
`offset[nodeCount-1]` is the edge count, and every position in
`[offset[i-1], offset[i])` (with `offset[-1] = 0`) holds a sorted source equal
to `i`. -/
theorem C1_offset_table :
    ∀ (s d : List Nat) (nm : List (String × Nat)) (nrm : List String)
      (nt : Option (List Nat)) (ntm : Option (List (String × Nat)))
      (ntrm : Option (List String)) (et : Option (List Nat))
      (etm : Option (List (String × Nat))) (etrm : Option (List String))
      (w : Option (List WeightT)) (vid : Option Bool) (g : Graph),
      new_directed s d nm nrm nt ntm ntrm et etm etrm w vid = Except.ok g →
      (∀ x ∈ s, x < nrm.length) → (∀ x ∈ d, x < nrm.length) →
      g.outbounds.length = nrm.length ∧
      (∀ i, i < nrm.length → g.outbounds.getD i 0 = countLe g.sources i) ∧
      g.outbounds.getD (nrm.length - 1) 0 = s.length ∧
      (∀ i, i < nrm.length → ∀ pos,
        (if i = 0 then 0 else g.outbounds.getD (i - 1) 0) ≤ pos →
        pos < g.outbounds.getD i 0 → g.sources.getD pos 0 = i) := by
  intro s d nm nrm nt ntm ntrm et etm etrm w vid g hok hs hd
  have hg := new_directed_ok_eq hok
  subst hg
  simp only [directed_core]
  have hsorted := sorted_sources_sorted s
  have hperm : (applyPerm (sort_indices s) s 0).Perm s :=
    applyPerm_perm s 0 (sort_indices_perm s)
  have hlen : (applyPerm (sort_indices s) s 0).length = s.length := hperm.length_eq
  have hbound : ∀ x ∈ applyPerm (sort_indices s) s 0, x < nrm.length :=
    fun x hx => hs x (hperm.mem_iff.mp hx)
  refine ⟨compute_outbounds_length _ _, ?_, ?_, ?_⟩
  · intro i hi
    exact compute_outbounds_getD _ _ i hi
  · by_cases hn : nrm.length = 0
    · have hse : s = [] := by
        cases s with
        | nil => rfl
        | cons a t =>
          exact absurd (hs a (List.mem_cons_self a t)) (by rw [hn]; exact Nat.not_lt_zero a)
      rw [hn]
      simp [compute_outbounds, hse]
    · have hn2 : 0 < nrm.length := Nat.pos_of_ne_zero hn
      rw [compute_outbounds_getD _ _ _ (Nat.sub_lt hn2 Nat.one_pos)]
      rw [countLe_eq_length_of_bound _ _ hbound, hlen]
  · intro i hi pos hlo hhi
    rw [compute_outbounds_getD _ _ i hi] at hhi
    have hposlen : pos < (applyPerm (sort_indices s) s 0).length :=
      Nat.lt_of_lt_of_le hhi (countLe_le_length _ _)
    have hle := sorted_getD_le_of_lt_countLe _ hsorted i pos hhi
    cases i with
    | zero => exact Nat.le_antisymm hle (Nat.zero_le _)
    | succ j =>
      rw [if_neg (Nat.succ_ne_zero j), Nat.succ_sub_one,
        compute_outbounds_getD _ _ j (Nat.lt_of_succ_lt hi)] at hlo
      have hgt := sorted_lt_getD_of_countLe_le _ hsorted j pos hlo hposlen
      omega

/-- Witness for C1 at the concrete input `sources = [2,0,1]`,
`destinations = [0,1,2]`, three nodes, validation disabled. -/
theorem C1_offset_table_witness :
    (directed_core [2, 0, 1] [0, 1, 2] [("A", 0), ("B", 1), ("C", 2)]
        ["A", "B", "C"] none none none none none none none).outbounds.length = 3 ∧
    (∀ i, i < 3 →
      (directed_core [2, 0, 1] [0, 1, 2] [("A", 0), ("B", 1), ("C", 2)]
        ["A", "B", "C"] none none none none none none none).outbounds.getD i 0 =
      countLe (directed_core [2, 0, 1] [0, 1, 2] [("A", 0), ("B", 1), ("C", 2)]
        ["A", "B", "C"] none none none none none none none).sources i) ∧
    (directed_core [2, 0, 1] [0, 1, 2] [("A", 0), ("B", 1), ("C", 2)]
        ["A", "B", "C"] none none none none none none none).outbounds.getD 2 0 = 3 ∧
    (∀ i, i < 3 → ∀ pos,
      (if i = 0 then 0 else
        (directed_core [2, 0, 1] [0, 1, 2] [("A", 0), ("B", 1), ("C", 2)]
          ["A", "B", "C"] none none none none none none none).outbounds.getD (i - 1) 0) ≤ pos →
      pos < (directed_core [2, 0, 1] [0, 1, 2] [("A", 0), ("B", 1), ("C", 2)]
        ["A", "B", "C"] none none none none none none none).outbounds.getD i 0 →
      (directed_core [2, 0, 1] [0, 1, 2] [("A", 0), ("B", 1), ("C", 2)]
        ["A", "B", "C"] none none none none none none none).sources.getD pos 0 = i) :=
  C1_offset_table [2, 0, 1] [0, 1, 2] [("A", 0), ("B", 1), ("C", 2)] ["A", "B", "C"]
    none none none none none none none (some false) _ rfl (by decide) (by decide)

/-- C2: every accepted input admits a single permutation `pi` of edge positions
that simultaneously reorders sources, destinations, weights and edge types,
with the reordered sources ascending (so re-sorting them is a no-op); on the
end-to-end example with `sources = [2,0,1]`, `destinations = [0,1,2]` and
weights `[1.0, 2.0, 3.0]`, construction succeeds with
`sortedSources = [0,1,2]` and `offset = [1,2,3]`. -/
theorem C2_sort_permutation :
    (∀ (s d : List Nat) (nm : List (String × Nat)) (nrm : List String)
      (nt : Option (List Nat)) (ntm : Option (List (String × Nat)))
      (ntrm : Option (List String)) (et : Option (List Nat))
      (etm : Option (List (String × Nat))) (etrm : Option (List String))
      (w : Option (List WeightT)) (vid : Option Bool) (g : Graph),
      new_directed s d nm nrm nt ntm ntrm et etm etrm w vid = Except.ok g →
      ∃ pi : List Nat,
        pi.Perm (List.range s.length) ∧
        g.sources = pi.map (fun x => s.getD x 0) ∧
        g.destinations = pi.map (fun x => d.getD x 0) ∧
        (∀ ww, w = some ww →
          g.weights = some (pi.map (fun x => ww.getD x (WeightT.finite 0)))) ∧
        (∀ ee, et = some ee → g.edge_types = some (pi.map (fun x => ee.getD x 0))) ∧
        List.Sorted (fun a b => a ≤ b) g.sources ∧
        List.insertionSort (fun a b => a ≤ b) g.sources = g.sources) ∧
    (∃ g : Graph,
      new_directed [2, 0, 1] [0, 1, 2] [("A", 0), ("B", 1), ("C", 2)] ["A", "B", "C"]
        none none none none none none
        (some [WeightT.finite 1, WeightT.finite 2, WeightT.finite 3])
        (some true) = Except.ok g ∧
      g.sources = [0, 1, 2] ∧ g.outbounds = [1, 2, 3]) := by
  constructor
  · intro s d nm nrm nt ntm ntrm et etm etrm w vid g hok
    have hg := new_directed_ok_eq hok
    subst hg
    refine ⟨sort_indices s, sort_indices_perm s, rfl, rfl, ?_, ?_,
      sorted_sources_sorted s, (sorted_sources_sorted s).insertionSort_eq⟩
    · intro ww hww
      subst hww
      rfl
    · intro ee hee
      subst hee
      rfl
  · refine ⟨directed_core [2, 0, 1] [0, 1, 2] [("A", 0), ("B", 1), ("C", 2)]
      ["A", "B", "C"] none none none none none none
      (some [WeightT.finite 1, WeightT.finite 2, WeightT.finite 3]), ?_, ?_, ?_⟩
    · rfl
    · decide
    · decide

/-- Witness for C2 applying the universal part at the example input. -/
theorem C2_sort_permutation_witness :
    ∃ pi : List Nat,
      pi.Perm (List.range (3 : Nat)) ∧
      (directed_core [2, 0, 1] [0, 1, 2] [("A", 0), ("B", 1), ("C", 2)]
        ["A", "B", "C"] none none none none none none
        (some [WeightT.finite 1, WeightT.finite 2, WeightT.finite 3])).sources =
        pi.map (fun x => List.getD [2, 0, 1] x 0) ∧
      (directed_core [2, 0, 1] [0, 1, 2] [("A", 0), ("B", 1), ("C", 2)]
        ["A", "B", "C"] none none none none none none
        (some [WeightT.finite 1, WeightT.finite 2, WeightT.finite 3])).destinations =
        pi.map (fun x => List.getD [0, 1, 2] x 0) ∧
      (∀ ww, (some [WeightT.finite 1, WeightT.finite 2, WeightT.finite 3] :
          Option (List WeightT)) = some ww →
        (directed_core [2, 0, 1] [0, 1, 2] [("A", 0), ("B", 1), ("C", 2)]
          ["A", "B", "C"] none none none none none none
          (some [WeightT.finite 1, WeightT.finite 2, WeightT.finite 3])).weights =
          some (pi.map (fun x => ww.getD x (WeightT.finite 0)))) ∧
      (∀ ee, (none : Option (List Nat)) = some ee →
        (directed_core [2, 0, 1] [0, 1, 2] [("A", 0), ("B", 1), ("C", 2)]
          ["A", "B", "C"] none none none none none none
          (some [WeightT.finite 1, WeightT.finite 2, WeightT.finite 3])).edge_types =
          some (pi.map (fun x => ee.getD x 0))) ∧
      List.Sorted (fun a b => a ≤ b)
        (directed_core [2, 0, 1] [0, 1, 2] [("A", 0), ("B", 1), ("C", 2)]
          ["A", "B", "C"] none none none none none none
          (some [WeightT.finite 1, WeightT.finite 2, WeightT.finite 3])).sources ∧
      List.insertionSort (fun a b => a ≤ b)
        (directed_core [2, 0, 1] [0, 1, 2] [("A", 0), ("B", 1), ("C", 2)]
          ["A", "B", "C"] none none none none none none
          (some [WeightT.finite 1, WeightT.finite 2, WeightT.finite 3])).sources =
        (directed_core [2, 0, 1] [0, 1, 2] [("A", 0), ("B", 1), ("C", 2)]
          ["A", "B", "C"] none none none none none none
          (some [WeightT.finite 1, WeightT.finite 2, WeightT.finite 3])).sources :=
  C2_sort_permutation.1 [2, 0, 1] [0, 1, 2] [("A", 0), ("B", 1), ("C", 2)]
    ["A", "B", "C"] none none none none none none
    (some [WeightT.finite 1, WeightT.finite 2, WeightT.finite 3]) (some true) _ rfl

/-- C3: for every accepted input, the edge multiset of the graph built by
`new_undirected` is the input edge multiset plus exactly one mirrored edge
`(d, s)` for each non-self-loop input edge `(s, d)`, mirrored edges carrying
the same weight and edge type, self-loops never mirrored; in particular input
edges `{(0,1),(1,2),(2,2)}` yield the multiset
`{(0,1),(1,0),(1,2),(2,1),(2,2)}`. -/
theorem C3_symmetrization :
    (∀ (s d : List Nat) (nm : List (String × Nat)) (nrm : List String)
      (nt : Option (List Nat)) (ntm : Option (List (String × Nat)))
      (ntrm : Option (List String)) (et : Option (List Nat))
      (etm : Option (List (String × Nat))) (etrm : Option (List String))
      (w : Option (List WeightT)) (vid : Option Bool) (g : Graph),
      new_undirected s d nm nrm nt ntm ntrm et etm etrm w vid = Except.ok g →
      d.length = s.length →
      ((g.sources.zip g.destinations).Perm
        (s.zip d ++ ((s.zip d).filter (fun p => !(p.1 == p.2))).map Prod.swap)) ∧
      (∀ ww : List WeightT, w = some ww → ww.length = s.length →
        ∃ gw, g.weights = some gw ∧
          (g.sources.zip (g.destinations.zip gw)).Perm
            (s.zip (d.zip ww) ++
              ((s.zip (d.zip ww)).filter (fun t => !(t.1 == t.2.1))).map
                (fun t => (t.2.1, (t.1, t.2.2))))) ∧
      (∀ ee : List Nat, et = some ee → ee.length = s.length →
        ∃ ge, g.edge_types = some ge ∧
          (g.sources.zip (g.destinations.zip ge)).Perm
            (s.zip (d.zip ee) ++
              ((s.zip (d.zip ee)).filter (fun t => !(t.1 == t.2.1))).map
                (fun t => (t.2.1, (t.1, t.2.2)))))) ∧
    (∃ g : Graph,
      new_undirected [0, 1, 2] [1, 2, 2] [("A", 0), ("B", 1), ("C", 2)]
        ["A", "B", "C"] none none none none none none none (some true) =
        Except.ok g ∧
      (↑(g.sources.zip g.destinations) : Multiset (Nat × Nat)) =
        ↑[(0, 1), (1, 0), (1, 2), (2, 1), (2, 2)]) := by
  constructor
  · intro s d nm nrm nt ntm ntrm et etm etrm w vid g hok hlen
    have hg := new_undirected_ok_eq hok
    subst hg
    simp only [directed_core]
    have hfm := filterMask_length_congr d s (loops_mask s d) hlen
    have hlfs : (s ++ filterMask d (loops_mask s d)).length =
        (d ++ filterMask s (loops_mask s d)).length := by
      simp [List.length_append, hlen, hfm]
    refine ⟨?_, ?_, ?_⟩
    · have hp := directed_zip_perm _ _ (le_of_eq hlfs)
      rw [List.zip_append hlen.symm] at hp
      rw [filterMask_zip_mirror s d hlen] at hp
      exact hp
    · intro ww hww hwwlen
      subst hww
      refine ⟨_, rfl, ?_⟩
      have hfmw := filterMask_length_congr d ww (loops_mask s d)
        (hlen.trans hwwlen.symm)
      have hlfw : (s ++ filterMask d (loops_mask s d)).length =
          (ww ++ filterMask ww (loops_mask s d)).length := by
        simp [List.length_append, hwwlen, hfmw]
      have hzlen : s.length = (d.zip ww).length := by
        rw [List.length_zip, hlen, hwwlen]
        exact (Nat.min_self _).symm
      have hp := directed_zip3_perm
        (s ++ filterMask d (loops_mask s d))
        (d ++ filterMask s (loops_mask s d))
        (ww ++ filterMask ww (loops_mask s d))
        (WeightT.finite 0) (le_of_eq hlfs) (le_of_eq hlfw)
      rw [List.zip_append (hlen.trans hwwlen.symm)] at hp
      rw [List.zip_append hzlen] at hp
      rw [filterMask_zip3_mirror s d ww hlen hwwlen] at hp
      exact hp
    · intro ee hee heelen
      subst hee
      refine ⟨_, rfl, ?_⟩
      have hfme := filterMask_length_congr d ee (loops_mask s d)
        (hlen.trans heelen.symm)
      have hlfe : (s ++ filterMask d (loops_mask s d)).length =
          (ee ++ filterMask ee (loops_mask s d)).length := by
        simp [List.length_append, heelen, hfme]
      have hzlen : s.length = (d.zip ee).length := by
        rw [List.length_zip, hlen, heelen]
        exact (Nat.min_self _).symm
      have hp := directed_zip3_perm
        (s ++ filterMask d (loops_mask s d))
        (d ++ filterMask s (loops_mask s d))
        (ee ++ filterMask ee (loops_mask s d))
        (0 : Nat) (le_of_eq hlfs) (le_of_eq hlfe)
      rw [List.zip_append (hlen.trans heelen.symm)] at hp
      rw [List.zip_append hzlen] at hp
      rw [filterMask_zip3_mirror s d ee hlen heelen] at hp
      exact hp
  · refine ⟨directed_core
      ([0, 1, 2] ++ filterMask [1, 2, 2] (loops_mask [0, 1, 2] [1, 2, 2]))
      ([1, 2, 2] ++ filterMask [0, 1, 2] (loops_mask [0, 1, 2] [1, 2, 2]))
      [("A", 0), ("B", 1), ("C", 2)] ["A", "B", "C"] none none none none none none
      none, rfl, ?_⟩
    rw [Multiset.coe_eq_coe]
    decide

/-- Witness for C3 applying the universal part at a concrete input with a
self-loop and a weight list. -/
theorem C3_symmetrization_witness :
    ((directed_core
      ([0, 2] ++ filterMask [1, 2] (loops_mask [0, 2] [1, 2]))
      ([1, 2] ++ filterMask [0, 2] (loops_mask [0, 2] [1, 2]))
      [("A", 0), ("B", 1), ("C", 2)] ["A", "B", "C"] none none none none none none
      (some ([WeightT.finite 1, WeightT.finite 2] ++
        filterMask [WeightT.finite 1, WeightT.finite 2] (loops_mask [0, 2] [1, 2])))).sources.zip
      (directed_core
      ([0, 2] ++ filterMask [1, 2] (loops_mask [0, 2] [1, 2]))
      ([1, 2] ++ filterMask [0, 2] (loops_mask [0, 2] [1, 2]))
      [("A", 0), ("B", 1), ("C", 2)] ["A", "B", "C"] none none none none none none
      (some ([WeightT.finite 1, WeightT.finite 2] ++
        filterMask [WeightT.finite 1, WeightT.finite 2] (loops_mask [0, 2] [1, 2])))).destinations).Perm
      ([(0, 1), (2, 2)] ++ (([(0, 1), (2, 2)] :
        List (Nat × Nat)).filter (fun p => !(p.1 == p.2))).map Prod.swap) :=
  ((C3_symmetrization.1 [0, 2] [1, 2] [("A", 0), ("B", 1), ("C", 2)] ["A", "B", "C"]
    none none none none none none
    (some [WeightT.finite 1, WeightT.finite 2]) (some true) _ rfl rfl).1)

theorem checkWeights_first :
    ∀ (l : List WeightT) (i : Nat) (e : BuildError),
      (∀ j, j < i → checkWeight (l.getD j (WeightT.finite 1)) = none) →
      i < l.length → checkWeight (l.getD i (WeightT.finite 1)) = some e →
      checkWeights l = some e := by
  intro l
  induction l with
  | nil => intro i e _ hi; simp at hi
  | cons x t ih =>
    intro i e hbefore hi hat
    cases i with
    | zero =>
      rw [List.getD_cons_zero] at hat
      simp [checkWeights, hat]
    | succ k =>
      have h0 : checkWeight x = none := by
        have := hbefore 0 (Nat.succ_pos k)
        simpa using this
      rw [List.getD_cons_succ] at hat
      have ht := ih k e
        (fun j hj => by
          have := hbefore (j + 1) (Nat.succ_lt_succ hj)
          simpa using this)
        (Nat.lt_of_succ_lt_succ (by simpa using hi)) hat
      simp [checkWeights, h0, ht]

/-- C4: `validate` runs its checks in the fixed source order — node-mapping
lengths, node-types length, node-id existence, weights length then per-weight
domain checks, edge-types length — short-circuiting on the first failure; the
weights pass surfaces the first offending weight by position, each weight
checked in the precedence order zero, negative, NaN, infinite. -/
theorem C4_validate_order :
    ∀ (s d : List Nat) (nm : List (String × Nat)) (nrm : List String)
      (nt : Option (List Nat)) (et : Option (List Nat)) (w : Option (List WeightT)),
      (nm.length ≠ nrm.length →
        validate s d nm nrm nt et w =
          Except.error (.LengthMismatchNodeMapping nm.length nrm.length)) ∧
      (nm.length = nrm.length → ∀ ntl, nt = some ntl → ntl.length ≠ nrm.length →
        validate s d nm nrm nt et w =
          Except.error (.LengthMismatchNodeTypes ntl.length nrm.length)) ∧
      (nm.length = nrm.length → ∀ ntl, nt = some ntl → ntl.length = nrm.length →
        ∀ x, firstDangling s d ntl.length = some x →
        validate s d nm nrm nt et w = Except.error (.DanglingNodeReference x)) ∧
      (nm.length = nrm.length →
        nodeTypesLenBlock nt nrm.length = Except.ok () →
        nodeTypesDanglingBlock s d nt = Except.ok () →
        ∀ ww, w = some ww → ww.length ≠ s.length →
        validate s d nm nrm nt et w =
          Except.error (.LengthMismatchWeights ww.length s.length)) ∧
      (nm.length = nrm.length →
        nodeTypesLenBlock nt nrm.length = Except.ok () →
        nodeTypesDanglingBlock s d nt = Except.ok () →
        ∀ ww, w = some ww → ww.length = s.length →
        ∀ i e, (∀ j, j < i → checkWeight (ww.getD j (WeightT.finite 1)) = none) →
          i < ww.length → checkWeight (ww.getD i (WeightT.finite 1)) = some e →
        validate s d nm nrm nt et w = Except.error e) ∧
      (nm.length = nrm.length →
        nodeTypesLenBlock nt nrm.length = Except.ok () →
        nodeTypesDanglingBlock s d nt = Except.ok () →
        weightsBlock s.length w = Except.ok () →
        ∀ ee, et = some ee → ee.length ≠ s.length →
        validate s d nm nrm nt et w =
          Except.error (.LengthMismatchEdgeTypes ee.length s.length)) ∧
      (nm.length = nrm.length →
        nodeTypesLenBlock nt nrm.length = Except.ok () →
        nodeTypesDanglingBlock s d nt = Except.ok () →
        weightsBlock s.length w = Except.ok () →
        edgeTypesBlock s.length et = Except.ok () →
        validate s d nm nrm nt et w = Except.ok ()) ∧
      (∀ wt, weightEqZero wt = true → checkWeight wt = some (.ZeroWeight wt)) ∧
      (∀ wt, weightEqZero wt = false → weightLtZero wt = true →
        checkWeight wt = some (.NegativeWeight wt)) ∧
      (∀ wt, weightEqZero wt = false → weightLtZero wt = false →
        weightIsNaN wt = true → checkWeight wt = some .NaNWeight) ∧
      (∀ wt, weightEqZero wt = false → weightLtZero wt = false →
        weightIsNaN wt = false → weightIsInfinite wt = true →
        checkWeight wt = some .InfiniteWeight) := by
  intro s d nm nrm nt et w
  refine ⟨?_, ?_, ?_, ?_, ?_, ?_, ?_, ?_, ?_, ?_, ?_⟩
  · intro h
    unfold validate
    rw [if_pos h]
  · intro h ntl hntl hntlen
    subst hntl
    unfold validate
    rw [if_neg (not_not_intro h)]
    have hb : nodeTypesLenBlock (some ntl) nrm.length =
        Except.error (.LengthMismatchNodeTypes ntl.length nrm.length) := by
      simp [nodeTypesLenBlock, hntlen]
    rw [hb]
  · intro h ntl hntl hntlen x hx
    subst hntl
    unfold validate
    rw [if_neg (not_not_intro h)]
    have hb1 : nodeTypesLenBlock (some ntl) nrm.length = Except.ok () := by
      simp [nodeTypesLenBlock, hntlen]
    have hb2 : nodeTypesDanglingBlock s d (some ntl) =
        Except.error (.DanglingNodeReference x) := by
      simp [nodeTypesDanglingBlock, hx]
    rw [hb1, hb2]
  · intro h hb1 hb2 ww hw hwlen
    subst hw
    unfold validate
    rw [if_neg (not_not_intro h), hb1, hb2]
    have hwb : weightsBlock s.length (some ww) =
        Except.error (.LengthMismatchWeights ww.length s.length) := by
      simp [weightsBlock, hwlen]
    rw [hwb]
  · intro h hb1 hb2 ww hw hwlen i e hbefore hi hat
    subst hw
    unfold validate
    rw [if_neg (not_not_intro h), hb1, hb2]
    have hwb : weightsBlock s.length (some ww) = Except.error e := by
      simp only [weightsBlock]
      rw [if_neg (not_not_intro hwlen)]
      rw [checkWeights_first ww i e hbefore hi hat]
    rw [hwb]
  · intro h hb1 hb2 hwb ee hee heelen
    subst hee
    unfold validate
    rw [if_neg (not_not_intro h), hb1, hb2, hwb]
    simp [edgeTypesBlock, heelen]
  · intro h hb1 hb2 hwb heb
    unfold validate
    rw [if_neg (not_not_intro h), hb1, hb2, hwb, heb]
  · intro wt h
    simp [checkWeight, h]
  · intro wt h1 h2
    simp [checkWeight, h1, h2]
  · intro wt h1 h2 h3
    simp [checkWeight, h1, h2, h3]
  · intro wt h1 h2 h3 h4
    simp [checkWeight, h1, h2, h3, h4]

/-- Witness for C4: with weights `[3.0, NaN]` the first offending weight is the
NaN at position 1, and `validate` surfaces `NaNWeight`. -/
theorem C4_validate_order_witness :
    validate [0, 1] [1, 0] [("A", 0), ("B", 1)] ["A", "B"] none none
      (some [WeightT.finite 3, WeightT.nan]) = Except.error BuildError.NaNWeight :=
  (C4_validate_order [0, 1] [1, 0] [("A", 0), ("B", 1)] ["A", "B"] none none
      (some [WeightT.finite 3, WeightT.nan])).2.2.2.2.1 rfl rfl rfl
    [WeightT.finite 3, WeightT.nan] rfl rfl 1 BuildError.NaNWeight
    (fun j hj => by
      have hj0 : j = 0 := Nat.lt_one_iff.mp hj
      subst hj0
      decide)
    (by decide) (by decide)

/-- C5: when a `(source, destination)` pair occurs at several input positions,
the dedup index maps it to its last occurrence in input order, while the
duplicate edges all remain present in the sorted arrays; in particular for
input edges `[(0,1) w=1.0, (0,1) w=2.0]` the index maps `(0,1)` to position 1
and both edges survive. -/
theorem C5_dedup_last_wins :
    (∀ (s d : List Nat) (nm : List (String × Nat)) (nrm : List String)
      (nt : Option (List Nat)) (ntm : Option (List (String × Nat)))
      (ntrm : Option (List String)) (et : Option (List Nat))
      (etm : Option (List (String × Nat))) (etrm : Option (List String))
      (w : Option (List WeightT)) (vid : Option Bool) (g : Graph),
      new_directed s d nm nrm nt ntm ntrm et etm etrm w vid = Except.ok g →
      d.length = s.length →
      (∀ i a b, i < s.length → s.getD i 0 = a → d.getD i 0 = b →
        (∀ j, i < j → j < s.length → ¬(s.getD j 0 = a ∧ d.getD j 0 = b)) →
        lookupEdge g.unique_edges (a, b) = some i) ∧
      (g.sources.zip g.destinations).Perm (s.zip d)) ∧
    (∃ g : Graph,
      new_directed [0, 0] [1, 1] [("A", 0), ("B", 1)] ["A", "B"] none none none
        none none none (some [WeightT.finite 1, WeightT.finite 2]) (some true) =
        Except.ok g ∧
      lookupEdge g.unique_edges (0, 1) = some 1 ∧
      g.sources.zip g.destinations = [(0, 1), (0, 1)]) := by
  constructor
  · intro s d nm nrm nt ntm ntrm et etm etrm w vid g hok hlen
    have hg := new_directed_ok_eq hok
    subst hg
    simp only [directed_core]
    have hzl : (s.zip d).length = s.length := by
      rw [List.length_zip, hlen]
      exact Nat.min_self _
    constructor
    · intro i a b hi ha hb hnone
      apply lookupEdge_unique_edges_last
      · rwa [hzl]
      · rw [getD_zip s d i 0 0 hi (by rwa [hlen]), ha, hb]
      · intro j hij hjl
        rw [hzl] at hjl
        rw [getD_zip s d j 0 0 hjl (by rwa [hlen])]
        intro hpair
        exact hnone j hij hjl
          ⟨congrArg Prod.fst hpair, congrArg Prod.snd hpair⟩
    · exact directed_zip_perm s d (le_of_eq hlen.symm)
  · refine ⟨directed_core [0, 0] [1, 1] [("A", 0), ("B", 1)] ["A", "B"] none none
      none none none none (some [WeightT.finite 1, WeightT.finite 2]), rfl, ?_, ?_⟩
    · decide
    · decide

/-- Witness for C5 applying the universal part at the duplicate-edge input. -/
theorem C5_dedup_last_wins_witness :
    lookupEdge (directed_core [0, 0] [1, 1] [("A", 0), ("B", 1)] ["A", "B"] none
      none none none none none
      (some [WeightT.finite 1, WeightT.finite 2])).unique_edges (0, 1) = some 1 :=
  (C5_dedup_last_wins.1 [0, 0] [1, 1] [("A", 0), ("B", 1)] ["A", "B"] none none
      none none none none (some [WeightT.finite 1, WeightT.finite 2]) (some true)
      _ rfl rfl).1 1 0 1 (by decide) rfl rfl
    (fun j hj1 hj2 => absurd hj2
      (by simp only [List.length_cons, List.length_nil]; omega))

/-- C6 counterexample: the claim that every dedup-index value is a position
into the SORTED arrays fails: for `sources = [2,0,1]`, `destinations = [0,1,2]`
the pair `(2,0)` maps to 0, yet the sorted arrays at position 0 hold `(0,1)`. -/
theorem C6_counterexample :
    ∃ g : Graph,
      new_directed [2, 0, 1] [0, 1, 2] [("A", 0), ("B", 1), ("C", 2)]
        ["A", "B", "C"] none none none none none none none (some true) =
        Except.ok g ∧
      lookupEdge g.unique_edges (2, 0) = some 0 ∧
      ¬(g.sources.getD 0 0 = 2 ∧ g.destinations.getD 0 0 = 0) := by
  refine ⟨directed_core [2, 0, 1] [0, 1, 2] [("A", 0), ("B", 1), ("C", 2)]
    ["A", "B", "C"] none none none none none none none, rfl, ?_, ?_⟩
  · decide
  · decide

/-- C6 (amended): every dedup-index entry maps a pair to its position in the
ORIGINAL (pre-sort) input arrays: `sources[p] = s` and `destinations[p] = d`
for the input arrays as supplied, not the sorted ones. -/
theorem C6_dedup_original_position :
    ∀ (s d : List Nat) (nm : List (String × Nat)) (nrm : List String)
      (nt : Option (List Nat)) (ntm : Option (List (String × Nat)))
      (ntrm : Option (List String)) (et : Option (List Nat))
      (etm : Option (List (String × Nat))) (etrm : Option (List String))
      (w : Option (List WeightT)) (vid : Option Bool) (g : Graph),
      new_directed s d nm nrm nt ntm ntrm et etm etrm w vid = Except.ok g →
      d.length = s.length →
      ∀ a b i, lookupEdge g.unique_edges (a, b) = some i →
        i < s.length ∧ s.getD i 0 = a ∧ d.getD i 0 = b := by
  intro s d nm nrm nt ntm ntrm et etm etrm w vid g hok hlen a b i hl
  have hg := new_directed_ok_eq hok
  subst hg
  simp only [directed_core] at hl
  have hzl : (s.zip d).length = s.length := by
    rw [List.length_zip, hlen]
    exact Nat.min_self _
  rcases lookupEdge_unique_edges_mem (s.zip d) (a, b) i hl with ⟨hilen, hget⟩
  rw [hzl] at hilen
  rw [getD_zip s d i 0 0 hilen (by rwa [hlen])] at hget
  exact ⟨hilen, congrArg Prod.fst hget, congrArg Prod.snd hget⟩

/-- Witness for the amended C6 at the counterexample input. -/
theorem C6_dedup_original_position_witness :
    0 < List.length [2, 0, 1] ∧ List.getD [2, 0, 1] 0 0 = 2 ∧
      List.getD [0, 1, 2] 0 0 = 0 :=
  C6_dedup_original_position [2, 0, 1] [0, 1, 2] [("A", 0), ("B", 1), ("C", 2)]
    ["A", "B", "C"] none none none none none none none (some true) _ rfl rfl
    2 0 0 (by decide)

/-- C7: with node types present, `validate` rejects any input whose edge
endpoints contain an id `≥ len(nodeTypes)` with `DanglingNodeReference`; with
node types absent the existence check is skipped entirely, so `validate`
accepts (all other checks passing) even ids `≥ len(nodeIdToName)`. -/
theorem C7_dangling_only_with_node_types :
    (∀ (s d : List Nat) (nm : List (String × Nat)) (nrm : List String)
      (ntl : List Nat) (et : Option (List Nat)) (w : Option (List WeightT)),
      nm.length = nrm.length → ntl.length = nrm.length →
      (∃ x ∈ s ++ d, nrm.length ≤ x) →
      ∃ node, nrm.length ≤ node ∧
        validate s d nm nrm (some ntl) et w =
          Except.error (.DanglingNodeReference node)) ∧
    (∀ (s d : List Nat) (nm : List (String × Nat)) (nrm : List String)
      (et : Option (List Nat)) (w : Option (List WeightT)),
      nm.length = nrm.length →
      weightsBlock s.length w = Except.ok () →
      edgeTypesBlock s.length et = Except.ok () →
      validate s d nm nrm none et w = Except.ok ()) := by
  constructor
  · intro s d nm nrm ntl et w h hntlen hex
    have hsome : (firstDangling s d ntl.length).isSome := by
      unfold firstDangling
      rw [List.find?_isSome]
      rcases hex with ⟨x, hx, hxe⟩
      exact ⟨x, hx, by simpa [hntlen] using hxe⟩
    rcases Option.isSome_iff_exists.mp hsome with ⟨x, hx⟩
    refine ⟨x, ?_, ?_⟩
    · have := List.find?_some hx
      rw [hntlen] at this
      exact of_decide_eq_true this
    · unfold validate
      rw [if_neg (not_not_intro h)]
      have hb1 : nodeTypesLenBlock (some ntl) nrm.length = Except.ok () := by
        simp [nodeTypesLenBlock, hntlen]
      have hb2 : nodeTypesDanglingBlock s d (some ntl) =
          Except.error (.DanglingNodeReference x) := by
        simp [nodeTypesDanglingBlock, hx]
      rw [hb1, hb2]
  · intro s d nm nrm et w h hwb hetb
    unfold validate
    rw [if_neg (not_not_intro h)]
    have h1 : nodeTypesLenBlock none nrm.length = Except.ok () := rfl
    have h2 : nodeTypesDanglingBlock s d none = Except.ok () := rfl
    rw [h1, h2, hwb, hetb]

/-- Witness for C7: out-of-range endpoints 5 and 7 with a single node and no
node types are accepted. -/
theorem C7_dangling_only_with_node_types_witness :
    validate [5] [7] [("A", 0)] ["A"] none none none = Except.ok () :=
  C7_dangling_only_with_node_types.2 [5] [7] [("A", 0)] ["A"] none none rfl rfl rfl

/-- C8: `new_directed` and `new_undirected` return an error exactly when the
validation flag (defaulting to true) is enabled and the validator rejects the
input; the error is the validator's error unchanged, and whenever the
validator accepts or validation is disabled a `Graph` is returned. -/
theorem C8_validation_gate :
    ∀ (s d : List Nat) (nm : List (String × Nat)) (nrm : List String)
      (nt : Option (List Nat)) (ntm : Option (List (String × Nat)))
      (ntrm : Option (List String)) (et : Option (List Nat))
      (etm : Option (List (String × Nat))) (etrm : Option (List String))
      (w : Option (List WeightT)) (vid : Option Bool),
      (∀ e : BuildError,
        new_directed s d nm nrm nt ntm ntrm et etm etrm w vid = Except.error e ↔
          (vid.getD true = true ∧
            validate s d nm nrm nt et w = Except.error e)) ∧
      (∀ e : BuildError,
        new_undirected s d nm nrm nt ntm ntrm et etm etrm w vid = Except.error e ↔
          (vid.getD true = true ∧
            validate s d nm nrm nt et w = Except.error e)) ∧
      ((vid.getD true = false ∨ validate s d nm nrm nt et w = Except.ok ()) →
        (∃ g, new_directed s d nm nrm nt ntm ntrm et etm etrm w vid =
          Except.ok g) ∧
        (∃ g, new_undirected s d nm nrm nt ntm ntrm et etm etrm w vid =
          Except.ok g)) := by
  intro s d nm nrm nt ntm ntrm et etm etrm w vid
  by_cases hv : vid.getD true = true
  · cases hval : validate s d nm nrm nt et w with
    | error e0 =>
      have hnd : new_directed s d nm nrm nt ntm ntrm et etm etrm w vid =
          Except.error e0 := by
        simp [new_directed, hv, hval]
      have hnu : new_undirected s d nm nrm nt ntm ntrm et etm etrm w vid =
          Except.error e0 := by
        simp [new_undirected, hv, hval]
      refine ⟨?_, ?_, ?_⟩
      · intro e
        rw [hnd]
        constructor
        · intro he
          have he2 : e0 = e := by
            injection he
          exact ⟨hv, by rw [he2]⟩
        · intro he
          have he2 : e0 = e := by
            injection he.2
          rw [he2]
      · intro e
        rw [hnu]
        constructor
        · intro he
          have he2 : e0 = e := by
            injection he
          exact ⟨hv, by rw [he2]⟩
        · intro he
          have he2 : e0 = e := by
            injection he.2
          rw [he2]
      · intro hor
        rcases hor with hfalse | hok
        · rw [hv] at hfalse
          exact absurd hfalse (by simp)
        · exact absurd hok (by simp)
    | ok u =>
      cases u
      have hnd : new_directed s d nm nrm nt ntm ntrm et etm etrm w vid =
          Except.ok (directed_core s d nm nrm nt ntm ntrm et etm etrm w) := by
        simp [new_directed, hv, hval]
      have hnu : new_undirected s d nm nrm nt ntm ntrm et etm etrm w vid =
          Except.ok (directed_core
            (s ++ filterMask d (loops_mask s d))
            (d ++ filterMask s (loops_mask s d))
            nm nrm nt ntm ntrm
            (et.map (fun e => e ++ filterMask e (loops_mask s d)))
            etm etrm
            (w.map (fun ww => ww ++ filterMask ww (loops_mask s d)))) := by
        simp [new_undirected, new_directed, hv, hval]
      refine ⟨?_, ?_, ?_⟩
      · intro e
        rw [hnd]
        simp
      · intro e
        rw [hnu]
        simp
      · intro _
        exact ⟨⟨_, hnd⟩, ⟨_, hnu⟩⟩
  · have hv2 : vid.getD true = false := by
      revert hv
      cases vid.getD true
      · intro _
        rfl
      · intro hv
        exact absurd rfl hv
    have hnd : new_directed s d nm nrm nt ntm ntrm et etm etrm w vid =
        Except.ok (directed_core s d nm nrm nt ntm ntrm et etm etrm w) := by
      simp [new_directed, hv2]
    have hnu : new_undirected s d nm nrm nt ntm ntrm et etm etrm w vid =
        Except.ok (directed_core
          (s ++ filterMask d (loops_mask s d))
          (d ++ filterMask s (loops_mask s d))
          nm nrm nt ntm ntrm
          (et.map (fun e => e ++ filterMask e (loops_mask s d)))
          etm etrm
          (w.map (fun ww => ww ++ filterMask ww (loops_mask s d)))) := by
      simp [new_undirected, new_directed, hv2]
    refine ⟨?_, ?_, ?_⟩
    · intro e
      rw [hnd]
      simp [hv2]
    · intro e
      rw [hnu]
      simp [hv2]
    · intro _
      exact ⟨⟨_, hnd⟩, ⟨_, hnu⟩⟩

/-- Witness for C8: with validation disabled a graph is returned for an input
the validator would reject (mismatched node mapping). -/
theorem C8_validation_gate_witness :
    (∃ g, new_directed [0] [0] [("A", 0), ("B", 1)] ["A"] none none none none
      none none none (some false) = Except.ok g) ∧
    (∃ g, new_undirected [0] [0] [("A", 0), ("B", 1)] ["A"] none none none none
      none none none (some false) = Except.ok g) :=
  (C8_validation_gate [0] [0] [("A", 0), ("B", 1)] ["A"] none none none none
    none none none (some false)).2.2 (Or.inl rfl)

/-- C9: every graph returned by either builder carries the caller-supplied
node mapping, reverse mapping, node types and the four type dictionaries
through unchanged. -/
theorem C9_passthrough :
    ∀ (s d : List Nat) (nm : List (String × Nat)) (nrm : List String)
      (nt : Option (List Nat)) (ntm : Option (List (String × Nat)))
      (ntrm : Option (List String)) (et : Option (List Nat))
      (etm : Option (List (String × Nat))) (etrm : Option (List String))
      (w : Option (List WeightT)) (vid : Option Bool) (g g2 : Graph),
      (new_directed s d nm nrm nt ntm ntrm et etm etrm w vid = Except.ok g →
        g.nodes_mapping = nm ∧ g.nodes_reverse_mapping = nrm ∧
        g.node_types = nt ∧ g.node_types_mapping = ntm ∧
        g.node_types_reverse_mapping = ntrm ∧ g.edge_types_mapping = etm ∧
        g.edge_types_reverse_mapping = etrm) ∧
      (new_undirected s d nm nrm nt ntm ntrm et etm etrm w vid = Except.ok g2 →
        g2.nodes_mapping = nm ∧ g2.nodes_reverse_mapping = nrm ∧
        g2.node_types = nt ∧ g2.node_types_mapping = ntm ∧
        g2.node_types_reverse_mapping = ntrm ∧ g2.edge_types_mapping = etm ∧
        g2.edge_types_reverse_mapping = etrm) := by
  intro s d nm nrm nt ntm ntrm et etm etrm w vid g g2
  constructor
  · intro h
    have hg := new_directed_ok_eq h
    subst hg
    exact ⟨rfl, rfl, rfl, rfl, rfl, rfl, rfl⟩
  · intro h
    have hg := new_undirected_ok_eq h
    subst hg
    exact ⟨rfl, rfl, rfl, rfl, rfl, rfl, rfl⟩

/-- Witness for C9 at a concrete accepted input. -/
theorem C9_passthrough_witness :
    (directed_core [0] [1] [("A", 0), ("B", 1)] ["A", "B"] (some [4, 5])
      (some [("t", 0)]) (some ["t"]) none (some [("r", 0)]) (some ["r"])
      none).nodes_mapping = [("A", 0), ("B", 1)] ∧
    (directed_core [0] [1] [("A", 0), ("B", 1)] ["A", "B"] (some [4, 5])
      (some [("t", 0)]) (some ["t"]) none (some [("r", 0)]) (some ["r"])
      none).nodes_reverse_mapping = ["A", "B"] ∧
    (directed_core [0] [1] [("A", 0), ("B", 1)] ["A", "B"] (some [4, 5])
      (some [("t", 0)]) (some ["t"]) none (some [("r", 0)]) (some ["r"])
      none).node_types = some [4, 5] ∧
    (directed_core [0] [1] [("A", 0), ("B", 1)] ["A", "B"] (some [4, 5])
      (some [("t", 0)]) (some ["t"]) none (some [("r", 0)]) (some ["r"])
      none).node_types_mapping = some [("t", 0)] ∧
    (directed_core [0] [1] [("A", 0), ("B", 1)] ["A", "B"] (some [4, 5])
      (some [("t", 0)]) (some ["t"]) none (some [("r", 0)]) (some ["r"])
      none).node_types_reverse_mapping = some ["t"] ∧
    (directed_core [0] [1] [("A", 0), ("B", 1)] ["A", "B"] (some [4, 5])
      (some [("t", 0)]) (some ["t"]) none (some [("r", 0)]) (some ["r"])
      none).edge_types_mapping = some [("r", 0)] ∧
    (directed_core [0] [1] [("A", 0), ("B", 1)] ["A", "B"] (some [4, 5])
      (some [("t", 0)]) (some ["t"]) none (some [("r", 0)]) (some ["r"])
      none).edge_types_reverse_mapping = some ["r"] :=
  (C9_passthrough [0] [1] [("A", 0), ("B", 1)] ["A", "B"] (some [4, 5])
    (some [("t", 0)]) (some ["t"]) none (some [("r", 0)]) (some ["r"]) none
    (some false) _ (directed_core [] [] [] [] none none none none none none none)).1 rfl

/-- C10: `validate` never compares the lengths of `sources` and
`destinations`: with a consistent node mapping and no node types, edge types
or weights, it accepts regardless of those two lengths. -/
theorem C10_no_endpoint_length_check :
    ∀ (s d : List Nat) (nm : List (String × Nat)) (nrm : List String),
      nm.length = nrm.length →
      validate s d nm nrm none none none = Except.ok () := by
  intro s d nm nrm h
  unfold validate
  rw [if_neg (not_not_intro h)]
  rfl

/-- Witness for C10: accepted even with three sources and no destinations. -/
theorem C10_no_endpoint_length_check_witness :
    validate [1, 2, 3] [] [] [] none none none = Except.ok () ∧
      List.length [1, 2, 3] ≠ List.length ([] : List Nat) :=
  ⟨C10_no_endpoint_length_check [1, 2, 3] [] [] [] rfl, by decide⟩
